import Mathlib

/-!
Verification development for the catbot repository (ordpool-space/catbot).

The Python sources are shallowly embedded below:
  * `src/main.py`      : `get_image_url`, `get_cat_age` (tool functions)
  * `src/agent.py`     : `CatbotAgent.get_cat_age`, `CatbotAgent.query_database`,
                         `CatbotAgent.process_question` (session history, orchestrator)
  * `src/twitterbot.py`: `TwitterBot._split_into_tweets`, `TwitterBot.check_mentions`

Machine integers are modelled as `Nat`/`Int`; Python floor division and modulo
are `Int.fdiv`/`Int.fmod`; Python exceptions are `Except`; time is seconds as `Int`.
-/

set_option maxRecDepth 8000

/-- Python `a // b` on integers (floor division). -/
def pyDiv (a b : Int) : Int := Int.fdiv a b

/-- Python `a % b` on integers (floor modulo). -/
def pyMod (a b : Int) : Int := Int.fmod a b

/-! ## Image URL convention (src/main.py, get_image_url) -/

/-- Embedding of `get_image_url` from `src/main.py`:
`cat_bucket_idx = cat_number // 1000`, then the formatted URL string.
The module-level `CAT21_IMAGE_BASE_URL` is passed as the `base` parameter. -/
def get_image_url (base : String) (cat_number : Nat) : String :=
  let cat_bucket_idx := cat_number / 1000
  base ++ "/pngs/" ++ toString cat_bucket_idx ++ "/cat_" ++ toString cat_number ++ ".png"

/-! ## Timestamp parsing and the age tool (src/agent.py, get_cat_age) -/

/-- Result of `datetime.strptime(s, "%Y-%m-%dT%H:%M:%S+00:00")`. -/
structure PyDateTime where
  year : Nat
  month : Nat
  day : Nat
  hour : Nat
  minute : Nat
  second : Nat
deriving DecidableEq

/-- Whether `y` is a Gregorian leap year (as Python `calendar.isleap`). -/
def isLeapYear (y : Nat) : Bool :=
  y % 4 == 0 && (y % 100 != 0 || y % 400 == 0)

/-- Days in month `m` of year `y` (Python `calendar.monthrange` convention). -/
def daysInMonth (y m : Nat) : Nat :=
  if m == 2 then (if isLeapYear y then 29 else 28)
  else if m == 4 || m == 6 || m == 9 || m == 11 then 30
  else 31

/-- Decimal digits to a natural number. -/
def digitsToNat (cs : List Char) : Nat :=
  cs.foldl (fun a c => a * 10 + (c.toNat - 48)) 0

/-- Modelled from the library call `datetime.strptime(minted_at, "%Y-%m-%dT%H:%M:%S+00:00")`
in `src/agent.py` (the parser itself lives in the Python standard library, not in the
repository): accepts exactly strings of shape `YYYY-MM-DDTHH:MM:SS+00:00` with valid
calendar field ranges, and rejects everything else (Python raises `ValueError`). -/
def strptimeCat (s : String) : Option PyDateTime :=
  match s.data with
  | [y1, y2, y3, y4, '-', m1, m2, '-', d1, d2, 'T',
     h1, h2, ':', n1, n2, ':', s1, s2, '+', '0', '0', ':', '0', '0'] =>
    if ([y1, y2, y3, y4, m1, m2, d1, d2, h1, h2, n1, n2, s1, s2].all Char.isDigit) then
      let year := digitsToNat [y1, y2, y3, y4]
      let month := digitsToNat [m1, m2]
      let day := digitsToNat [d1, d2]
      let hour := digitsToNat [h1, h2]
      let minute := digitsToNat [n1, n2]
      let second := digitsToNat [s1, s2]
      if 1 ≤ year && year ≤ 9999 && 1 ≤ month && month ≤ 12 &&
         1 ≤ day && day ≤ daysInMonth year month &&
         hour ≤ 23 && minute ≤ 59 && second ≤ 59 then
        some ⟨year, month, day, hour, minute, second⟩
      else none
    else none
  | _ => none

/-- Days before January 1 of year `y` counted from year 1
(the formula used by CPython `datetime._days_before_year`). -/
def daysBeforeYear (y : Nat) : Nat :=
  365 * (y - 1) + (y - 1) / 4 - (y - 1) / 100 + (y - 1) / 400

/-- Days in year `y` before the first day of month `m`. -/
def daysBeforeMonth (y m : Nat) : Nat :=
  ((List.range (m - 1)).map (fun i => daysInMonth y (i + 1))).sum

/-- Seconds of a `PyDateTime` on the proleptic Gregorian time line
(CPython `datetime.toordinal` scaled to seconds). -/
def toSecs (dt : PyDateTime) : Int :=
  ((daysBeforeYear dt.year + daysBeforeMonth dt.year dt.month + (dt.day - 1) : Nat) : Int) * 86400
    + dt.hour * 3600 + dt.minute * 60 + dt.second

/-- Embedding of the age-string computation of `get_cat_age` in `src/agent.py`,
as a function of `tdelta.days` (Python `years = tdelta.days // 365`,
`remaining_days = tdelta.days % 365`, `months = remaining_days // 30`,
`days = remaining_days % 30`, then the four formatting branches). -/
def ageStr (tdeltaDays : Int) : String :=
  let years := pyDiv tdeltaDays 365
  let remaining_days := pyMod tdeltaDays 365
  let months := pyDiv remaining_days 30
  let days := pyMod remaining_days 30
  if tdeltaDays < 1 then
    "just minted today!"
  else if tdeltaDays < 30 then
    toString tdeltaDays ++ " days old!"
  else if tdeltaDays < 365 then
    toString months ++ " months and " ++ toString days ++ " days old!"
  else
    toString years ++ " years, " ++ toString months ++ " months and " ++ toString days ++ " days old!"

/-- Embedding of `CatbotAgent.get_cat_age` from `src/agent.py`. `nowSec` is
`datetime.now()` in seconds on the same time line as `toSecs`. A `ValueError`
raised by `strptime` on a malformed timestamp propagates to the caller,
modelled as `Except.error`; `tdelta.days` is floor division of the elapsed
seconds by 86400 (Python `timedelta` normalisation). -/
def get_cat_age (nowSec : Int) (minted_at : String) : Except String String :=
  match strptimeCat minted_at with
  | none => .error "ValueError: time data does not match format"
  | some dt =>
    let tdeltaDays := pyDiv (nowSec - toSecs dt) 86400
    let minted_at_date := String.mk (minted_at.data.takeWhile (fun c => c ≠ 'T'))
    .ok (ageStr tdeltaDays ++ " (born " ++ minted_at_date ++ ")")

/-! ## Session history and the orchestrator (src/agent.py, process_question) -/

/-- One entry of a pydantic-ai message `parts` list: `isText` models
`type(part) == TextPart`, `timestamp` models the optional `part.timestamp`
attribute (`hasattr(part, "timestamp")` is `timestamp.isSome`), in seconds. -/
structure MsgPart where
  isText : Bool
  content : String
  timestamp : Option Int
deriving DecidableEq

/-- A pydantic-ai message: a list of parts. -/
structure Msg where
  parts : List MsgPart
deriving DecidableEq

/-- The in-memory session history store: `self.history = defaultdict(list)`,
keyed by the `asked_by` user string; a missing key reads as `[]`. -/
def Store : Type := String → List Msg

/-- The constant `session_duration_minutes = 30`, in seconds. -/
def sessionWindowSec : Int := 30 * 60

/-- The per-part test inside the cutoff generator of `process_question`:
`datetime.now(tz=timezone.utc) - part.timestamp > timedelta(minutes=30)`,
guarded by `hasattr(part, "timestamp")`. -/
def partExpired (nowSec : Int) (p : MsgPart) : Bool :=
  match p.timestamp with
  | some t => decide (sessionWindowSec < nowSec - t)
  | none => false

/-- The test `any([...] for part in msg.parts if hasattr(part, "timestamp"))`. -/
def msgExpired (nowSec : Int) (m : Msg) : Bool :=
  m.parts.any (partExpired nowSec)

/-- The `cutoff` computation in `process_question`:
`next((i for i, msg in enumerate(history) if <msg expired>), 0)` —
the index of the first stored message containing an expired part, with
default `0` when no message matches. -/
def historyCutoff (nowSec : Int) (msgs : List Msg) : Nat :=
  match msgs.findIdx? (msgExpired nowSec) with
  | some i => i
  | none => 0

/-- The slice `message_history = self.history[asked_by][cutoff:]`. -/
def effectiveHistory (nowSec : Int) (msgs : List Msg) : List Msg :=
  msgs.drop (historyCutoff nowSec msgs)

/-- The read phase of `process_question` (lines 172-188 of `src/agent.py`)
as a store operation: it returns the effective history for the user together
with the store it leaves behind. -/
def readEffectiveHistory (store : Store) (user : String) (nowSec : Int) :
    List Msg × Store :=
  (effectiveHistory nowSec (store user), store)

/-- Outcome of `self.agent.run(question, message_history=...)`: either the
pair `(res.new_messages(), res.all_messages())` or a raised exception. -/
inductive EngineResult where
  | ok (newMessages : List Msg) (allMessages : List Msg)
  | err
deriving DecidableEq

/-- The strings yielded by the success path of `process_question`:
for each new message, each part with `type(part) == TextPart` yields
`part.content.strip()`, in order. -/
def yieldsOf (newMessages : List Msg) : List String :=
  newMessages.flatMap (fun m => (m.parts.filter (fun p => p.isText)).map (fun p => p.content.trim))

/-- The fallback string yielded on engine failure. -/
def fallbackMsg : String := "Uh-oh, our stupid dog ate the answer. Please try again."

/-- What one call to the async generator `process_question` does, observed
after the generator is exhausted (or its exception re-raised): the sequence
of yielded strings, the resulting history store, and whether the engine
failure was re-raised to the caller. -/
structure ProcessResult where
  outputs : List String
  history : Store
  raised : Bool

/-- Embedding of `CatbotAgent.process_question` from `src/agent.py`.
`engine` stands for `self.agent.run` as a function of the question and the
message history passed to it. On engine failure the generator yields the
fallback string and re-raises (`raise`), leaving `self.history` untouched;
on success it yields the trimmed text parts of the new messages and then
assigns `self.history[asked_by] = res.all_messages()`. -/
def process_question (engine : String → List Msg → EngineResult)
    (store : Store) (user question : String) (nowSec : Int) : ProcessResult :=
  let read := readEffectiveHistory store user nowSec
  let message_history := read.1
  let store := read.2
  match engine question message_history with
  | .err =>
      { outputs := [fallbackMsg], history := store, raised := true }
  | .ok newMsgs allMsgs =>
      { outputs := yieldsOf newMsgs,
        history := fun u => if u = user then allMsgs else store u,
        raised := false }

/-! ## The dataset-query tool (src/agent.py, query_database) -/

/-- Outcome of running `cursor.execute(query)` and fetching: either the
column names from `cursor.description` with the fetched rows, or a raised
execution error with message `msg`. Cell values have an abstract type `α`. -/
inductive ExecOutcome (α : Type) where
  | ok (columnNames : List String) (rows : List (List α))
  | fail (msg : String)

/-- The value `query_database` hands back to the reasoning engine: either a
list of records (`dict(zip(column_names, row))`, modelled as association
lists) or the error text built from the caught exception. -/
inductive QueryRet (α : Type) where
  | records (rs : List (List (String × α)))
  | errText (s : String)

/-- Observed behaviour of one `query_database` call: the returned value (or
a raised exception as `Except.error`), and how many database connections the
call acquired and closed. -/
structure DBCall (α : Type) where
  result : Except String (QueryRet α)
  connectionsAcquired : Nat
  connectionsClosed : Nat

/-- Embedding of `CatbotAgent.get_database_connection` from `src/agent.py`:
`psycopg2.connect` either succeeds or raises `DatabaseError`, which the
method logs and re-raises unchanged (`raise e`). -/
def get_database_connection (connect : Except String Unit) : Except String Unit :=
  match connect with
  | .ok u => .ok u
  | .error e => .error e

/-- Embedding of `CatbotAgent.query_database` from `src/agent.py`:
`conn = self.get_database_connection()` runs before the `try` block, so a
connection failure propagates and nothing is acquired; inside the
`try/except/finally`, success returns the zipped records, any execution
exception is caught and converted to the string `"Query failed due to {e}"`,
and the `finally` closes the connection on both paths. -/
def query_database {α : Type} (connect : Except String Unit)
    (exec : ExecOutcome α) : DBCall α :=
  match get_database_connection connect with
  | .error e => { result := .error e, connectionsAcquired := 0, connectionsClosed := 0 }
  | .ok _ =>
    match exec with
    | .ok column_names rows =>
        { result := .ok (.records (rows.map (fun row => column_names.zip row))),
          connectionsAcquired := 1, connectionsClosed := 1 }
    | .fail msg =>
        { result := .ok (.errText ("Query failed due to " ++ msg)),
          connectionsAcquired := 1, connectionsClosed := 1 }

/-! ## The microblog chunker (src/twitterbot.py, _split_into_tweets) -/

/-- The characters Python `str.split()` (no separator) treats as whitespace
(the ASCII ones; the claims only involve these). -/
def isPyWhitespace (c : Char) : Bool :=
  c == ' ' || c == '\t' || c == '\n' || c == '\r' || c == '\x0B' || c == '\x0C'

/-- Modelled from the library call `text.split()` in `_split_into_tweets`
(Python standard library, not repository code): split on runs of whitespace,
discarding empty pieces. `acc` carries the current word reversed. -/
def pySplitAux : List Char → List Char → List (List Char)
  | [], acc => if acc.isEmpty then [] else [acc.reverse]
  | c :: cs, acc =>
    if isPyWhitespace c then
      if acc.isEmpty then pySplitAux cs [] else acc.reverse :: pySplitAux cs []
    else
      pySplitAux cs (c :: acc)

/-- The assignment `words = text.split()`. -/
def wordsOf (text : String) : List String :=
  (pySplitAux text.data []).map String.mk

/-- The `for word in words` loop of `_split_into_tweets`, with the loop state
`parts`/`current_part` as accumulators, followed by the trailing
`if current_part: parts.append(current_part)`. -/
def splitWords (max_length : Nat) : List String → List String → String → List String
  | [], parts, current_part =>
      if current_part = "" then parts else parts ++ [current_part]
  | word :: ws, parts, current_part =>
      if current_part.length + word.length + 1 ≤ max_length then
        splitWords max_length ws parts
          (if current_part = "" then word else current_part ++ " " ++ word)
      else
        splitWords max_length ws (parts ++ [current_part]) word

/-- Embedding of `TwitterBot._split_into_tweets` from `src/twitterbot.py`
(`max_length` keeps its default value 280, the only value used). -/
def split_into_tweets (text : String) : List String :=
  let max_length := 280
  if text.length ≤ max_length then [text]
  else splitWords max_length (wordsOf text) [] ""

/-- Joining chunks with single spaces (the reconstruction operation the spec
speaks about). -/
def joinWords : List String → String
  | [] => ""
  | [w] => w
  | w :: x :: ws => w ++ " " ++ joinWords (x :: ws)

/-! ## The mention cursor (src/twitterbot.py, check_mentions) -/

/-- The observable cursor state of `TwitterBot`: the in-memory
`self.last_mention_id` and the integer persisted in
`/data/twitter/last_processed_mention_id.txt`. -/
structure TBState where
  lastMentionId : Option Nat
  persisted : Option Nat
deriving DecidableEq

/-- The guard `not self.last_mention_id or mention.id > self.last_mention_id`
in `check_mentions` (`not None` and `not 0` are both true in Python). -/
def shouldAdvance (last : Option Nat) (mentionId : Nat) : Bool :=
  match last with
  | none => true
  | some l => l == 0 || decide (l < mentionId)

/-- Embedding of `TwitterBot._save_last_mention_id`: overwrite the cursor
file with the given id (the file write is assumed to succeed; on failure the
method only logs, which no claim depends on). -/
def save_last_mention_id (s : TBState) (mention_id : Nat) : TBState :=
  { s with persisted := some mention_id }

/-- Embedding of the mention loop of `TwitterBot.check_mentions` from
`src/twitterbot.py`: for each mention of the fetched batch in order,
`process_and_reply` either succeeds (`processOk` true) or raises, in which
case the loop `break`s without touching the cursor; after a success the
cursor is advanced and persisted only when the guard `shouldAdvance` holds. -/
def check_mentions (processOk : Nat → Bool) : List Nat → TBState → TBState
  | [], s => s
  | mentionId :: rest, s =>
    if processOk mentionId then
      let s' :=
        if shouldAdvance s.lastMentionId mentionId then
          save_last_mention_id { s with lastMentionId := some mentionId } mentionId
        else s
      check_mentions processOk rest s'
    else s

/-! ## Theorems for the claims -/

/-- C8: for every non-negative numeric identifier `n`, the computed image URL
places `n` in bucket `⌊n / 1000⌋`, i.e. it equals
`<base>/pngs/<n / 1000>/cat_<n>.png`; in particular identifier 1999 resolves
to bucket 1 and identifier 2000 resolves to bucket 2. -/
theorem c8_image_url_bucket :
    (∀ (base : String) (cat_number : Nat),
        get_image_url base cat_number
          = base ++ "/pngs/" ++ toString (cat_number / 1000) ++ "/cat_"
              ++ toString cat_number ++ ".png") ∧
    get_image_url "https://preview.cat21.space" 1999
      = "https://preview.cat21.space/pngs/1/cat_1999.png" ∧
    get_image_url "https://preview.cat21.space" 2000
      = "https://preview.cat21.space/pngs/2/cat_2000.png" :=
  ⟨fun _ _ => rfl, rfl, rfl⟩

/-- C10: for every string of length at most 280 characters, the chunker
returns exactly the one-element list containing that string unchanged,
with no whitespace normalisation and no splitting, even when the string is
a single word that the accumulation budget could never admit. -/
theorem c10_short_text_returned_whole (text : String) (h : text.length ≤ 280) :
    split_into_tweets text = [text] := by
  unfold split_into_tweets
  simp [h]

/-- A single 280-character word: longer than the greedy budget would ever
accumulate, yet short enough for the early return. -/
def word280 : String := String.mk (List.replicate 280 'a')

/-- Witness for C10 at a concrete input: a lone 280-character word is
returned unchanged as a single chunk. -/
theorem c10_short_text_returned_whole_witness :
    word280.length ≤ 280 ∧ split_into_tweets word280 = [word280] :=
  ⟨by decide, c10_short_text_returned_whole word280 (by decide)⟩

/-- C6: for every well-formed timestamp the age tool formats the elapsed
whole days as "just minted today" under 1 day, "N days old" under 30 days,
"M months and D days old" under 365 days, and "Y years, M months and D days
old" from 365 days on, with years/months/days computed by floor division
with a 365-day year and a 30-day month; evaluated exactly 400 days after
"2024-01-01T00:00:00+00:00" it yields Y=1, M=1, D=5. -/
theorem c6_entity_age_buckets :
    (∀ (nowSec : Int) (minted_at : String) (dt : PyDateTime),
        strptimeCat minted_at = some dt →
        get_cat_age nowSec minted_at
          = .ok (ageStr (pyDiv (nowSec - toSecs dt) 86400) ++ " (born "
              ++ String.mk (minted_at.data.takeWhile (fun c => c ≠ 'T')) ++ ")")) ∧
    (∀ d : Int, d < 1 → ageStr d = "just minted today!") ∧
    (∀ d : Int, 1 ≤ d → d < 30 → ageStr d = toString d ++ " days old!") ∧
    (∀ d : Int, 30 ≤ d → d < 365 →
        ageStr d = toString (pyDiv (pyMod d 365) 30) ++ " months and "
          ++ toString (pyMod (pyMod d 365) 30) ++ " days old!") ∧
    (∀ d : Int, 365 ≤ d →
        ageStr d = toString (pyDiv d 365) ++ " years, "
          ++ toString (pyDiv (pyMod d 365) 30) ++ " months and "
          ++ toString (pyMod (pyMod d 365) 30) ++ " days old!") ∧
    get_cat_age (toSecs ⟨2024, 1, 1, 0, 0, 0⟩ + 400 * 86400) "2024-01-01T00:00:00+00:00"
      = .ok "1 years, 1 months and 5 days old! (born 2024-01-01)" := by
  refine ⟨?_, ?_, ?_, ?_, ?_, rfl⟩
  · intro nowSec minted_at dt h
    unfold get_cat_age
    rw [h]
  · intro d h; rw [ageStr, if_pos h]
  · intro d h1 h2
    rw [ageStr, if_neg (by omega), if_pos h2]
  · intro d h1 h2
    rw [ageStr, if_neg (by omega), if_neg (by omega), if_pos h2]
  · intro d h
    rw [ageStr, if_neg (by omega), if_neg (by omega), if_neg (by omega)]

/-- Witness for C6: the bucket lemma applied at 400 elapsed days gives the
"{Y} years, {M} months and {D} days old!" shape with Y=1. -/
theorem c6_entity_age_buckets_witness :
    (365 : Int) ≤ 400 ∧ ageStr 400 = "1 years, 1 months and 5 days old!" :=
  ⟨by decide, (c6_entity_age_buckets.2.2.2.2.1 400 (by decide)).trans (by decide)⟩

/-- C7: every input string the timestamp parser rejects makes the age tool
fail with a parse error surfaced to the caller instead of a returned value;
"not-a-date" is such a string. -/
theorem c7_malformed_timestamp_raises :
    (∀ (nowSec : Int) (minted_at : String), strptimeCat minted_at = none →
        get_cat_age nowSec minted_at
          = .error "ValueError: time data does not match format") ∧
    strptimeCat "not-a-date" = none := by
  refine ⟨?_, by decide⟩
  intro nowSec minted_at h
  unfold get_cat_age
  rw [h]

/-- Witness for C7 at the concrete malformed input "not-a-date". -/
theorem c7_malformed_timestamp_raises_witness :
    get_cat_age 0 "not-a-date" = .error "ValueError: time data does not match format" :=
  c7_malformed_timestamp_raises.1 0 "not-a-date" c7_malformed_timestamp_raises.2

/-- C2: whenever the reasoning-engine call fails, the orchestrator yields
exactly the one fallback text message, re-raises the failure, and leaves the
stored session history identical to its pre-call state. -/
theorem c2_engine_failure_yields_fallback (engine : String → List Msg → EngineResult)
    (store : Store) (user question : String) (nowSec : Int)
    (h : engine question (effectiveHistory nowSec (store user)) = .err) :
    process_question engine store user question nowSec
      = { outputs := [fallbackMsg], history := store, raised := true } := by
  unfold process_question readEffectiveHistory
  dsimp only
  rw [h]

/-- A reasoning engine that always fails, for the C2 witness. -/
def failingEngine : String → List Msg → EngineResult := fun _ _ => .err

/-- An empty history store, for the C2 witness. -/
def emptyStore : Store := fun _ => []

/-- Witness for C2 at concrete inputs: the failing engine produces exactly
the fallback output, the re-raise, and an untouched store. -/
theorem c2_engine_failure_yields_fallback_witness :
    process_question failingEngine emptyStore "twitter_user_1" "hi" 0
      = { outputs := [fallbackMsg], history := emptyStore, raised := true } :=
  c2_engine_failure_yields_fallback failingEngine emptyStore "twitter_user_1" "hi" 0 rfl

/-- C4: with a working connection, the dataset-query tool never raises: it
returns the zipped column-name/value records on success and the
human-readable "Query failed due to ..." string on any execution failure,
and in both cases the one freshly acquired connection is closed. -/
theorem c4_query_tool_contract (α : Type) (exec : ExecOutcome α) :
    (query_database (.ok ()) exec).connectionsAcquired = 1 ∧
    (query_database (.ok ()) exec).connectionsClosed = 1 ∧
    (∀ e, (query_database (.ok ()) exec).result ≠ .error e) ∧
    (∀ column_names rows, exec = .ok column_names rows →
        (query_database (.ok ()) exec).result
          = .ok (.records (rows.map (fun row => column_names.zip row)))) ∧
    (∀ msg, exec = .fail msg →
        (query_database (.ok ()) exec).result
          = .ok (.errText ("Query failed due to " ++ msg))) := by
  cases exec <;>
    simp [query_database, get_database_connection]

/-- Witness for C4 at concrete inputs: one succeeding query and one failing
query, both closing their connection and neither raising. -/
theorem c4_query_tool_contract_witness :
    (query_database (.ok ()) (.ok ["cat_number"] [[21]] : ExecOutcome Nat)).result
      = .ok (.records [[("cat_number", 21)]]) ∧
    (query_database (.ok ()) (.fail "syntax error" : ExecOutcome Nat)).result
      = .ok (.errText ("Query failed due to " ++ "syntax error")) ∧
    (query_database (.ok ()) (.fail "syntax error" : ExecOutcome Nat)).connectionsClosed = 1 :=
  ⟨(c4_query_tool_contract Nat (.ok ["cat_number"] [[21]])).2.2.2.1 ["cat_number"] [[21]] rfl,
   (c4_query_tool_contract Nat (.fail "syntax error")).2.2.2.2 "syntax error" rfl,
   (c4_query_tool_contract Nat (.fail "syntax error")).2.1⟩

/-- A stored message whose only part carries timestamp 0: at read time 7200
its age (two hours) exceeds the 30-minute session window. -/
def expiredMsg : Msg := ⟨[⟨true, "old turn", some 0⟩]⟩

/-- A stored message whose only part carries timestamp 7000: at read time
7200 its age is 200 seconds, inside the session window. -/
def freshMsg : Msg := ⟨[⟨true, "new turn", some 7000⟩]⟩

/-- C1 evaluated at the failing input: the first stored message is expired
(age 7200 s > 1800 s), so the cutoff generator matches it at index 0 and the
effective history *includes* it — the read returns the full history instead
of excluding the turn older than 30 minutes, contradicting both the claim
and the code comment "Keep only the most recent chat history per user". -/
theorem c1_expired_turn_not_excluded :
    msgExpired 7200 expiredMsg = true ∧
    historyCutoff 7200 [expiredMsg, freshMsg] = 0 ∧
    effectiveHistory 7200 [expiredMsg, freshMsg] = [expiredMsg, freshMsg] ∧
    expiredMsg ∈ effectiveHistory 7200 [expiredMsg, freshMsg] := by
  decide

/-- C5 evaluated at a counterexample input: batch [10, 7, 5], the item 5
(third, not first) fails, items 10 and 7 succeed, initial cursor 1. The
persisted cursor ends at 10 — the guard `mention.id > last_mention_id`
never lets the smaller id 7 in — not at 7, the identifier of the item
immediately preceding the failing one. -/
theorem c5_cursor_counterexample :
    ((fun i => !(i == 5)) 10 = true) ∧
    ((fun i => !(i == 5)) 7 = true) ∧
    ((fun i => !(i == 5)) 5 = false) ∧
    (check_mentions (fun i => !(i == 5)) [10, 7, 5] ⟨some 1, some 1⟩).persisted = some 10 ∧
    (check_mentions (fun i => !(i == 5)) [10, 7, 5] ⟨some 1, some 1⟩).persisted ≠ some 7 := by
  decide

/-- C9: pruning happens per read without mutating stored history — the read
phase hands the store back unchanged, the effective history is a suffix of
the stored turn list (turns are skipped, never removed), and a successful
exchange replaces the user entry with the full updated message set
while leaving every other user entry untouched. -/
theorem c9_read_prunes_without_mutation :
    (∀ (store : Store) (user : String) (nowSec : Int),
        (readEffectiveHistory store user nowSec).2 = store) ∧
    (∀ (nowSec : Int) (msgs : List Msg),
        (effectiveHistory nowSec msgs).IsSuffix msgs) ∧
    (∀ (newMsgs allMsgs : List Msg) (store : Store) (user question : String) (nowSec : Int),
        (process_question (fun _ _ => .ok newMsgs allMsgs) store user question nowSec).history
          = fun v => if v = user then allMsgs else store v) :=
  ⟨fun _ _ _ => rfl, fun _ msgs => List.drop_suffix _ msgs, fun _ _ _ _ _ _ => rfl⟩

/-- C5 (amended): when the batch identifiers are strictly increasing, the
initial cursor admits every item of the successful prefix, and exactly the
items before the failing one succeed, the loop stops at the failure and the
persisted cursor equals the identifier of the item immediately preceding the
failing one. -/
theorem c5_amended_cursor_last_good (processOk : Nat → Bool) :
    ∀ (pre post : List Nat) (f : Nat) (s0 : TBState) (hne : pre ≠ []),
    (∀ m ∈ pre, processOk m = true) → processOk f = false →
    ((pre ++ [f]).Pairwise (· < ·)) →
    (∀ m ∈ pre, shouldAdvance s0.lastMentionId m = true) →
    (check_mentions processOk (pre ++ f :: post) s0).persisted = some (pre.getLast hne) := by
  intro pre
  induction pre with
  | nil => intro post f s0 hne; exact absurd rfl hne
  | cons x xs ih =>
    intro post f s0 hne hpre hf hmono hadv
    have hx : processOk x = true := hpre x (List.mem_cons_self x xs)
    have hadvx : shouldAdvance s0.lastMentionId x = true := hadv x (List.mem_cons_self x xs)
    rw [List.cons_append, check_mentions, if_pos hx, if_pos hadvx]
    have hsave : save_last_mention_id { s0 with lastMentionId := some x } x
        = ⟨some x, some x⟩ := rfl
    rw [hsave]
    have hxlt : ∀ b ∈ xs ++ [f], x < b := by
      intro b hb
      exact (List.pairwise_cons.1 (by simpa using hmono)).1 b hb
    cases xs with
    | nil =>
      rw [List.nil_append, check_mentions, if_neg (by rw [hf]; exact Bool.false_ne_true)]
      rfl
    | cons y ys =>
      rw [List.getLast_cons (List.cons_ne_nil y ys)]
      refine ih post f ⟨some x, some x⟩ (List.cons_ne_nil y ys)
        (fun m hm => hpre m (List.mem_cons_of_mem x hm)) hf
        (List.Pairwise.of_cons (by simpa using hmono)) ?_
      intro m hm
      have : x < m := hxlt m (List.mem_append_left [f] hm)
      simp [shouldAdvance, this]

/-- Witness for C5 (amended) at a concrete input: batch [2, 3, 5, 9] with
item 5 failing; the persisted cursor ends at 3, the item immediately before
the failure. -/
theorem c5_amended_cursor_last_good_witness :
    (check_mentions (fun i => !(i == 5)) ([2, 3] ++ 5 :: [9]) ⟨some 1, some 1⟩).persisted
      = some ([2, 3].getLast (by decide)) :=
  c5_amended_cursor_last_good (fun i => !(i == 5)) [2, 3] [9] 5 ⟨some 1, some 1⟩
    (by decide) (by decide) (by decide) (by decide) (by decide)

/-! ### Lemmas for the microblog chunker -/

theorem joinWords_cons (w : String) (ws : List String) (h : ws ≠ []) :
    joinWords (w :: ws) = w ++ " " ++ joinWords ws := by
  cases ws with
  | nil => exact absurd rfl h
  | cons x xs => rfl

/-- Merging two adjacent chunks with a single space does not change the
single-space join of the whole list. -/
theorem joinWords_merge (xs : List String) (a b : String) (ys : List String) :
    joinWords (xs ++ (a ++ " " ++ b) :: ys) = joinWords (xs ++ a :: b :: ys) := by
  induction xs with
  | nil =>
    cases ys with
    | nil => rfl
    | cons y ys => simp only [List.nil_append, joinWords, String.append_assoc]
  | cons x xs ih =>
    rw [List.cons_append, List.cons_append,
        joinWords_cons x _ (by simp), joinWords_cons x _ (by simp), ih]

/-- Loop invariant of `splitWords` at budget 280: starting from a nonempty
current chunk within budget and parts within budget, and feeding words that
are nonempty and of length at most 279, every produced chunk stays within
280 characters, the single-space join of the output equals the single-space
join of `parts ++ current :: ws`, and the output is nonempty. -/
theorem splitWords_spec :
    ∀ (ws parts : List String) (current : String),
    (∀ w ∈ ws, w ≠ "" ∧ w.length ≤ 279) →
    (∀ c ∈ parts, c.length ≤ 280) →
    current ≠ "" → current.length ≤ 280 →
    (∀ c ∈ splitWords 280 ws parts current, c.length ≤ 280) ∧
    joinWords (splitWords 280 ws parts current) = joinWords (parts ++ current :: ws) ∧
    splitWords 280 ws parts current ≠ [] := by
  intro ws
  induction ws with
  | nil =>
    intro parts current hw hp hc hclen
    rw [splitWords, if_neg hc]
    refine ⟨?_, rfl, by simp⟩
    intro c hmem
    rcases List.mem_append.1 hmem with h | h
    · exact hp c h
    · rw [List.mem_singleton] at h; subst h; exact hclen
  | cons w ws ih =>
    intro parts current hw hp hc hclen
    obtain ⟨hwne, hwlen⟩ := hw w (List.mem_cons_self w ws)
    have hw' : ∀ v ∈ ws, v ≠ "" ∧ v.length ≤ 279 :=
      fun v hv => hw v (List.mem_cons_of_mem w hv)
    rw [splitWords]
    by_cases hfit : current.length + w.length + 1 ≤ 280
    · rw [if_pos hfit, if_neg hc]
      have hsp : (" " : String).length = 1 := rfl
      have hlen2 : (current ++ " " ++ w).length = current.length + 1 + w.length := by
        rw [String.length_append, String.length_append, hsp]
      have hne2 : current ++ " " ++ w ≠ "" := by
        intro he
        have h0 := congrArg String.length he
        rw [hlen2, String.length_empty] at h0
        omega
      obtain ⟨L, J, N⟩ := ih parts (current ++ " " ++ w) hw' hp hne2 (by omega)
      refine ⟨L, ?_, N⟩
      rw [J, joinWords_merge]
    · rw [if_neg hfit]
      have hp' : ∀ c ∈ parts ++ [current], c.length ≤ 280 := by
        intro c hmem
        rcases List.mem_append.1 hmem with h | h
        · exact hp c h
        · rw [List.mem_singleton] at h; subst h; exact hclen
      obtain ⟨L, J, N⟩ := ih (parts ++ [current]) w hw' hp' hwne (by omega)
      refine ⟨L, ?_, N⟩
      rw [J]
      congr 1
      simp [List.append_assoc]

/-- Every word `text.split()` produces is nonempty. -/
theorem pySplitAux_ne_nil :
    ∀ (cs acc : List Char), ∀ l ∈ pySplitAux cs acc, l ≠ [] := by
  intro cs
  induction cs with
  | nil =>
    intro acc l hl
    rw [pySplitAux] at hl
    by_cases h : acc.isEmpty
    · rw [if_pos h] at hl; simp at hl
    · rw [if_neg h] at hl
      rw [List.mem_singleton] at hl; subst hl
      intro hrev
      rw [List.reverse_eq_nil_iff] at hrev
      rw [hrev] at h
      exact h rfl
  | cons c cs ih =>
    intro acc l hl
    rw [pySplitAux] at hl
    by_cases h1 : isPyWhitespace c
    · rw [if_pos h1] at hl
      by_cases h2 : acc.isEmpty
      · rw [if_pos h2] at hl; exact ih [] l hl
      · rw [if_neg h2] at hl
        rcases List.mem_cons.1 hl with h | h
        · subst h
          intro hrev
          rw [List.reverse_eq_nil_iff] at hrev
          rw [hrev] at h2; exact h2 rfl
        · exact ih [] l h
    · rw [if_neg h1] at hl
      exact ih (c :: acc) l hl

theorem wordsOf_ne_empty (text : String) : ∀ w ∈ wordsOf text, w ≠ "" := by
  intro w hw
  rw [wordsOf] at hw
  rcases List.mem_map.1 hw with ⟨l, hl, rfl⟩
  have hne := pySplitAux_ne_nil text.data [] l hl
  intro hcontra
  exact hne (by simpa using congrArg String.data hcontra)

/-- C3 (amended): for every 500-character string in canonical whitespace
form (equal to its words joined by single spaces) whose every word has at
most 279 characters (strictly under the budget, because the greedy check
reserves one separator even for the first word of a chunk), the chunker
produces at least 2 chunks, none exceeding 280 characters, and joining all
chunks with single spaces reconstructs the original text. -/
theorem c3_amended_chunking (text : String)
    (hcanon : joinWords (wordsOf text) = text)
    (hwords : ∀ w ∈ wordsOf text, w.length ≤ 279)
    (hlen : text.length = 500) :
    2 ≤ (split_into_tweets text).length ∧
    (∀ c ∈ split_into_tweets text, c.length ≤ 280) ∧
    joinWords (split_into_tweets text) = text := by
  have h280 : ¬ text.length ≤ 280 := by omega
  have hsplit : split_into_tweets text = splitWords 280 (wordsOf text) [] "" := by
    rw [split_into_tweets, if_neg h280]
  have hwne : ∀ w ∈ wordsOf text, w ≠ "" := wordsOf_ne_empty text
  rcases hw0 : wordsOf text with _ | ⟨w1, rest⟩
  · exfalso
    rw [hw0] at hcanon
    rw [← hcanon] at hlen
    rw [show joinWords [] = "" from rfl, String.length_empty] at hlen
    omega
  · have hw1 : w1 ∈ wordsOf text := by rw [hw0]; exact List.mem_cons_self w1 rest
    have hw1len : w1.length ≤ 279 := hwords w1 hw1
    have hw1ne : w1 ≠ "" := hwne w1 hw1
    have hc0 : ("" : String).length + w1.length + 1 ≤ 280 := by
      rw [String.length_empty]; omega
    have hstep : splitWords 280 (w1 :: rest) [] "" = splitWords 280 rest [] w1 := by
      rw [splitWords, if_pos hc0, if_pos rfl]
    have hrest : ∀ v ∈ rest, v ≠ "" ∧ v.length ≤ 279 := by
      intro v hv
      have hv' : v ∈ wordsOf text := by rw [hw0]; exact List.mem_cons_of_mem w1 hv
      exact ⟨hwne v hv', hwords v hv'⟩
    obtain ⟨L, J, N⟩ := splitWords_spec rest [] w1 hrest (by simp) hw1ne (by omega)
    have hJ : joinWords (splitWords 280 rest [] w1) = text := by
      rw [J, List.nil_append, ← hw0]
      exact hcanon
    have h2 : 2 ≤ (splitWords 280 rest [] w1).length := by
      rcases hS : splitWords 280 rest [] w1 with _ | ⟨c, _ | ⟨c2, cs⟩⟩
      · exact absurd hS N
      · exfalso
        have hc : c.length ≤ 280 := L c (by rw [hS]; exact List.mem_singleton_self c)
        have hcx : c = text := by rw [hS] at hJ; exact hJ
        rw [hcx] at hc
        omega
      · simp
    rw [hsplit, hw0, hstep]
    exact ⟨h2, L, hJ⟩

/-- The 500-character text `"a"*280 ++ "  " ++ "b"*218`: it contains no word
over the 280-character budget, yet it refutes the claim as stated (its
double space is collapsed and its 280-character first word can never join a
chunk whose budget check reserves a separator, so the chunker emits an empty
leading chunk and the single-space join of the chunks differs from the
original text). -/
def text500Bad : String :=
  String.mk (List.replicate 280 'a' ++ ' ' :: ' ' :: List.replicate 218 'b')

/-- The 500-character canonical text `"a"*279 ++ " " ++ "b"*220` used to
witness the amended C3. -/
def text500Good : String :=
  String.mk (List.replicate 279 'a' ++ ' ' :: List.replicate 220 'b')

/-- Counterexample to C3 as stated: `text500Bad` has 500 characters and no
word over the 280-character budget, but joining the produced chunks with
single spaces does not reconstruct the original text. -/
theorem c3_chunking_counterexample :
    text500Bad.length = 500 ∧
    (∀ w ∈ wordsOf text500Bad, w.length ≤ 280) ∧
    joinWords (split_into_tweets text500Bad) ≠ text500Bad := by
  decide

/-- Witness for C3 (amended) at the concrete canonical input `text500Good`. -/
theorem c3_amended_chunking_witness :
    joinWords (wordsOf text500Good) = text500Good ∧
    (∀ w ∈ wordsOf text500Good, w.length ≤ 279) ∧
    text500Good.length = 500 ∧
    (2 ≤ (split_into_tweets text500Good).length ∧
      (∀ c ∈ split_into_tweets text500Good, c.length ≤ 280) ∧
      joinWords (split_into_tweets text500Good) = text500Good) :=
  ⟨by decide, by decide, by decide,
   c3_amended_chunking text500Good (by decide) (by decide) (by decide)⟩
